import Mathlib

/-!
Shallow embedding of the sdlc-config core (ConfigLoader.validate /
loadFromString, ConfigMerger, PhaseManager) from
src/implementations/ConfigLoader.ts, together with theorems checking the
specification's claims about it.

JavaScript-object conventions used throughout the embedding:
an optional field absent from an object is `none`; JS object spread
`\x7b...base, ...override\x7d` keeps base's keys and lets override's present
keys win; `a || b` on strings falls back when `a` is the empty string
(falsy); `a ?? b` falls back only on absence; a JS `Map` keeps insertion
order and updates values in place.
-/

namespace SDLC

/-- Task type enum: 'manual' | 'automated' | 'review' | 'approval'. -/
inductive TaskType where
  | manual
  | automated
  | review
  | approval
deriving DecidableEq, Repr

/-- Values stored in open-ended `Record<string, unknown>` metadata maps.
`undef` models a JS key present with value `undefined`. -/
inductive MetaVal where
  | str (s : String)
  | boolV (b : Bool)
  | intV (n : Int)
  | strMap (m : List (String × String))
  | boolMap (m : List (String × Bool))
  | undef
deriving DecidableEq, Repr

/-- A JS object with unknown-typed values, as an ordered association list. -/
abbrev MetaRecord := List (String × MetaVal)

/-- ISDLCTask (ConfigTypes.ts). The TS field `type` is `taskType` here. -/
structure SDLCTask where
  id : String
  name : String
  description : Option String := none
  taskType : TaskType
  required : Bool
  dependencies : Option (List String) := none
  estimatedDuration : Option String := none
  assignee : Option String := none
  tools : Option (List String) := none
  outputs : Option (List String) := none
deriving DecidableEq, Repr

/-- ISDLCTransition (ConfigTypes.ts). -/
structure SDLCTransition where
  «from» : String
  «to» : String
  conditions : List String := []
  requiresApproval : Option Bool := none
  approvers : Option (List String) := none
  metadata : Option MetaRecord := none
deriving DecidableEq, Repr

/-- ISDLCPhase (ConfigTypes.ts). -/
structure SDLCPhase where
  id : String
  name : String
  description : Option String := none
  objectives : List String := []
  deliverables : List String := []
  entryConditions : List String := []
  exitConditions : List String := []
  tasks : List SDLCTask := []
  nextPhases : List String := []
  requiresApproval : Option Bool := none
  metadata : Option MetaRecord := none
deriving DecidableEq, Repr

/-- ITimeoutSettings (ConfigTypes.ts). -/
structure TimeoutSettings where
  phaseTimeout : Option String := none
  taskTimeout : Option String := none
  approvalTimeout : Option String := none
  warningThreshold : Option Int := none
deriving DecidableEq, Repr

/-- IIntegrationSettings (ConfigTypes.ts). -/
structure IntegrationSettings where
  githubEnabled : Option Bool := none
  slackEnabled : Option Bool := none
  emailEnabled : Option Bool := none
  webhookUrl : Option String := none
  customIntegrations : Option MetaRecord := none
deriving DecidableEq, Repr

/-- IWorkflowSettings (ConfigTypes.ts). -/
structure WorkflowSettings where
  requireApprovalForTransitions : Option Bool := none
  defaultApprovers : Option (List String) := none
  notificationChannels : Option (List String) := none
  timeoutSettings : Option TimeoutSettings := none
  integrations : Option IntegrationSettings := none
deriving DecidableEq, Repr

/-- ISDLCWorkflow (ConfigTypes.ts). -/
structure SDLCWorkflow where
  id : String
  name : String
  description : Option String := none
  version : String
  initialPhase : String
  phases : List SDLCPhase
  transitions : List SDLCTransition
  globalSettings : Option WorkflowSettings := none
  metadata : Option MetaRecord := none
deriving DecidableEq, Repr

/-- IEnvironmentConfig (ConfigTypes.ts). -/
structure EnvironmentConfig where
  name : String
  description : Option String := none
  overrides : Option WorkflowSettings := none
  featureFlags : Option (List (String × Bool)) := none
  «variables» : Option (List (String × String)) := none
deriving DecidableEq, Repr

/-- ISDLCConfig (ConfigTypes.ts). -/
structure SDLCConfig where
  version : String
  workflows : List SDLCWorkflow
  environments : Option (List EnvironmentConfig) := none
  defaultWorkflow : Option String := none
  defaultEnvironment : Option String := none
  metadata : Option MetaRecord := none
deriving DecidableEq, Repr

/-- Error type enum of IValidationError. -/
inductive ErrorType where
  | missing
  | invalid
  | conflict
  | reference
deriving DecidableEq, Repr

/-- Warning type enum of IValidationWarning. -/
inductive WarningType where
  | deprecated
  | unused
  | performance
  | bestPractice
deriving DecidableEq, Repr

/-- IValidationError (ConfigTypes.ts). The TS field `type` is `etype`. -/
structure ValidationError where
  path : String
  message : String
  etype : ErrorType
deriving DecidableEq, Repr

/-- IValidationWarning (ConfigTypes.ts). The TS field `type` is `wtype`. -/
structure ValidationWarning where
  path : String
  message : String
  wtype : WarningType
deriving DecidableEq, Repr

/-- IConfigValidationResult (ConfigTypes.ts). -/
structure ConfigValidationResult where
  valid : Bool
  errors : List ValidationError
  warnings : List ValidationWarning
deriving DecidableEq, Repr

/-- JS truthiness of a string: falsy exactly when empty. -/
def truthy (s : String) : Bool := s ≠ ""

/-- Pair each element with its index starting from `k` (JS forEach index). -/
def withIdxFrom (k : Nat) : List α → List (Nat × α)
  | [] => []
  | a :: l => (k, a) :: withIdxFrom (k + 1) l

/-- Pair each element with its 0-based index (JS forEach callback index). -/
def withIdx (l : List α) : List (Nat × α) := withIdxFrom 0 l

/-- JS Array.prototype.join with separator `sep`. -/
def joinSep (sep : String) : List String → String
  | [] => ""
  | [a] => a
  | a :: b :: rest => a ++ sep ++ joinSep sep (b :: rest)

/-- First value stored under key `k` in a JS-object association list. -/
def recLookup (m : List (String × α)) (k : String) : Option α :=
  (m.find? (fun p => p.1 == k)).map (·.2)

/-- JS object spread \x7b...b, ...o\x7d: b's keys in order with o's values
winning per key, then o's keys not in b, in o's order. -/
def objMerge (b o : List (String × α)) : List (String × α) :=
  b.map (fun p => (p.1, ((recLookup o p.1).getD p.2)))
    ++ o.filter (fun p => (recLookup b p.1).isNone)

/-- JS Map.prototype.set: update in place when the key exists (insertion
order kept), else append the new entry. -/
def mapSet (m : List (String × α)) (k : String) (v : α) : List (String × α) :=
  if m.any (fun p => p.1 == k) then
    m.map (fun p => if p.1 == k then (k, v) else p)
  else m ++ [(k, v)]

/-- JS Map.prototype.get. -/
def mapGet (m : List (String × α)) (k : String) : Option α :=
  (m.find? (fun p => p.1 == k)).map (·.2)

/-- The phase-id set of a workflow (ConfigLoader.validate line 107). -/
def phaseIdsOf (workflow : SDLCWorkflow) : List String :=
  workflow.phases.map (·.id)

/-- ConfigLoader.validate, initial-phase check (lines 110-116). The JS guard
`workflow.initialPhase && !phaseIds.has(...)` skips a falsy (empty) id. -/
def initialPhaseErrors (wIndex : Nat) (workflow : SDLCWorkflow) : List ValidationError :=
  let ip := workflow.initialPhase
  if truthy ip && !((phaseIdsOf workflow).contains ip) then
    [{ path := s!"/workflows/{wIndex}/initialPhase",
       message := s!"Initial phase '{ip}' not found in workflow phases",
       etype := ErrorType.reference }]
  else []

/-- ConfigLoader.validate, nextPhases reference check (lines 120-128). -/
def nextPhaseErrors (wIndex pIndex : Nat) (phaseIds : List String)
    (phase : SDLCPhase) : List ValidationError :=
  (withIdx phase.nextPhases).filterMap fun (nIndex, nextPhaseId) =>
    if phaseIds.contains nextPhaseId then none
    else some
      { path := s!"/workflows/{wIndex}/phases/{pIndex}/nextPhases/{nIndex}",
        message := s!"Next phase '{nextPhaseId}' not found in workflow phases",
        etype := ErrorType.reference }

/-- ConfigLoader.validate, task-dependency check (lines 130-142). -/
def taskDepErrors (wIndex pIndex : Nat) (phase : SDLCPhase) : List ValidationError :=
  let taskIds := phase.tasks.map (·.id)
  (withIdx phase.tasks).flatMap fun (tIndex, task) =>
    (withIdx (task.dependencies.getD [])).filterMap fun (dIndex, depId) =>
      if taskIds.contains depId then none
      else some
        { path := s!"/workflows/{wIndex}/phases/{pIndex}/tasks/{tIndex}/dependencies/{dIndex}",
          message := s!"Task dependency '{depId}' not found in phase tasks",
          etype := ErrorType.reference }

/-- ConfigLoader.validate, transition endpoint check (lines 145-161). -/
def transitionErrors (wIndex : Nat) (phaseIds : List String)
    (workflow : SDLCWorkflow) : List ValidationError :=
  (withIdx workflow.transitions).flatMap fun (tIndex, transition) =>
    let src := transition.«from»
    let tgt := transition.«to»
    (if phaseIds.contains src then []
     else [{ path := s!"/workflows/{wIndex}/transitions/{tIndex}/from",
             message := s!"Transition source phase '{src}' not found",
             etype := ErrorType.reference }])
    ++ (if phaseIds.contains tgt then []
        else [{ path := s!"/workflows/{wIndex}/transitions/{tIndex}/to",
                message := s!"Transition target phase '{tgt}' not found",
                etype := ErrorType.reference }])

/-- ConfigLoader.validate, all reference errors of one workflow (lines 103-162). -/
def workflowRefErrors (wIndex : Nat) (workflow : SDLCWorkflow) : List ValidationError :=
  let phaseIds := phaseIdsOf workflow
  initialPhaseErrors wIndex workflow
    ++ ((withIdx workflow.phases).flatMap fun (pIndex, phase) =>
          nextPhaseErrors wIndex pIndex phaseIds phase
            ++ taskDepErrors wIndex pIndex phase)
    ++ transitionErrors wIndex phaseIds workflow

/-- ConfigLoader.validate, the referenced-phase set of the unused-phase pass
(lines 169-181): initial phase (if truthy), every transition's from and to,
every phase's nextPhases entries. -/
def referencedPhases (workflow : SDLCWorkflow) : List String :=
  (if truthy workflow.initialPhase then [workflow.initialPhase] else [])
    ++ (workflow.transitions.flatMap fun t => [t.«from», t.«to»])
    ++ (workflow.phases.flatMap fun p => p.nextPhases)

/-- ConfigLoader.validate, unused-phase warnings (lines 166-192). -/
def unusedWarnings (config : SDLCConfig) : List ValidationWarning :=
  (withIdx config.workflows).flatMap fun (wIndex, workflow) =>
    let referenced := referencedPhases workflow
    (withIdx workflow.phases).filterMap fun (pIndex, phase) =>
      if referenced.contains phase.id then none
      else some
        { path := s!"/workflows/{wIndex}/phases/{pIndex}",
          message := s!"Phase '{phase.id}' is not referenced by any transition or phase",
          wtype := WarningType.unused }

/-- ConfigLoader.validate, deprecated legacyMode warning (lines 195-201). -/
def deprecatedWarnings (config : SDLCConfig) : List ValidationWarning :=
  match config.metadata with
  | some md =>
    if md.any (fun p => p.1 == "legacyMode") then
      [{ path := "/metadata/legacyMode",
         message := "The legacyMode flag is deprecated and will be removed in future versions",
         wtype := WarningType.deprecated }]
    else []
  | none => []

/-- ConfigLoader.validate (lines 80-213). The Ajv schema check is an external
collaborator; its already-mapped error list is the `schemaErrors` argument,
prepended to the custom reference errors exactly as the code pushes schema
errors first. -/
def validate (schemaErrors : List ValidationError) (config : SDLCConfig) :
    ConfigValidationResult :=
  let errors := schemaErrors
    ++ (withIdx config.workflows).flatMap fun (wIndex, workflow) =>
         workflowRefErrors wIndex workflow
  let warnings := unusedWarnings config ++ deprecatedWarnings config
  { valid := errors.length == 0, errors := errors, warnings := warnings }

/-- ConfigLoader.loadFromString (lines 40-78), after the external YAML parse
produced `config` and the external schema gate produced `schemaErrors`.
Throwing is modelled as `Except.error` carrying the thrown message; the JS
`|| 'Unknown validation error'` fallback fires when the joined string is
falsy (empty). -/
def loadFromString (schemaErrors : List ValidationError) (config : SDLCConfig) :
    Except String SDLCConfig :=
  let validationResult := validate schemaErrors config
  if validationResult.valid then Except.ok config
  else
    let joined := joinSep ", "
      (validationResult.errors.map fun e => e.path ++ ": " ++ e.message)
    let errorMessages := if joined = "" then "Unknown validation error" else joined
    Except.error ("Invalid configuration: " ++ errorMessages)

/-- ConfigMerger.mergeWorkflowSettings (lines 339-361): `??` on the approval
flag, `||` on the arrays (JS arrays are always truthy, so presence decides),
and JS-spread shallow merges of the two nested settings objects, which always
produce an object (spreading an absent object contributes no keys). -/
def spreadTimeout (b o : Option TimeoutSettings) : TimeoutSettings :=
  { phaseTimeout := (o.bind (·.phaseTimeout)) <|> (b.bind (·.phaseTimeout))
    taskTimeout := (o.bind (·.taskTimeout)) <|> (b.bind (·.taskTimeout))
    approvalTimeout := (o.bind (·.approvalTimeout)) <|> (b.bind (·.approvalTimeout))
    warningThreshold := (o.bind (·.warningThreshold)) <|> (b.bind (·.warningThreshold)) }

/-- JS-spread shallow merge of the integrations objects (line 356-359). -/
def spreadIntegrations (b o : Option IntegrationSettings) : IntegrationSettings :=
  { githubEnabled := (o.bind (·.githubEnabled)) <|> (b.bind (·.githubEnabled))
    slackEnabled := (o.bind (·.slackEnabled)) <|> (b.bind (·.slackEnabled))
    emailEnabled := (o.bind (·.emailEnabled)) <|> (b.bind (·.emailEnabled))
    webhookUrl := (o.bind (·.webhookUrl)) <|> (b.bind (·.webhookUrl))
    customIntegrations := (o.bind (·.customIntegrations)) <|> (b.bind (·.customIntegrations)) }

/-- ConfigMerger.mergeWorkflowSettings (lines 339-361). -/
def mergeWorkflowSettings (base override : Option WorkflowSettings) :
    Option WorkflowSettings :=
  match base, override with
  | none, none => none
  | none, some o => some o
  | some b, none => some b
  | some b, some o =>
    some
      { requireApprovalForTransitions :=
          o.requireApprovalForTransitions <|> b.requireApprovalForTransitions
        defaultApprovers := o.defaultApprovers <|> b.defaultApprovers
        notificationChannels := o.notificationChannels <|> b.notificationChannels
        timeoutSettings := some (spreadTimeout b.timeoutSettings o.timeoutSettings)
        integrations := some (spreadIntegrations b.integrations o.integrations) }

/-- ConfigMerger.mergeMetadata (lines 395-403). -/
def mergeMetadata (base override : Option MetaRecord) : Option MetaRecord :=
  match base, override with
  | none, none => none
  | none, some o => some o
  | some b, none => some b
  | some b, some o => some (objMerge b o)

/-- ConfigMerger.mergeWorkflow (lines 330-337): JS spread of base then
override (override's required fields always win; its absent optional fields
keep base's), then globalSettings and metadata recursively merged. -/
def mergeWorkflow (base override : SDLCWorkflow) : SDLCWorkflow :=
  { id := override.id
    name := override.name
    description := override.description <|> base.description
    version := override.version
    initialPhase := override.initialPhase
    phases := override.phases
    transitions := override.transitions
    globalSettings := mergeWorkflowSettings base.globalSettings override.globalSettings
    metadata := mergeMetadata base.metadata override.metadata }

/-- The base-workflow pass of mergeWorkflows (lines 311-313): put each base
workflow into the map under its id. -/
def wfStep0 (m : List (String × SDLCWorkflow)) (w : SDLCWorkflow) :
    List (String × SDLCWorkflow) :=
  mapSet m w.id w

/-- The override-workflow pass of mergeWorkflows (lines 316-325): merge with
the existing entry of the same id, else add the new workflow. -/
def wfStep1 (m : List (String × SDLCWorkflow)) (w : SDLCWorkflow) :
    List (String × SDLCWorkflow) :=
  match mapGet m w.id with
  | some existing => mapSet m w.id (mergeWorkflow existing w)
  | none => mapSet m w.id w

/-- ConfigMerger.mergeWorkflows (lines 300-328): identity-keyed merge through
an insertion-ordered map. -/
def mergeWorkflows (baseWorkflows overrideWorkflows : List SDLCWorkflow) :
    List SDLCWorkflow :=
  if overrideWorkflows.isEmpty then baseWorkflows
  else
    (overrideWorkflows.foldl wfStep1 (baseWorkflows.foldl wfStep0 [])).map (·.2)

/-- ConfigMerger.mergeEnvironments (lines 363-393): name-keyed merge through
an insertion-ordered map. -/
def mergeEnvironments (base override : Option (List EnvironmentConfig)) :
    Option (List EnvironmentConfig) :=
  match base, override with
  | none, none => none
  | none, some o => some o
  | some b, none => some b
  | some b, some o =>
    let m0 := b.foldl (fun m env => mapSet m env.name env)
      ([] : List (String × EnvironmentConfig))
    let m1 := o.foldl
      (fun m env =>
        match mapGet m env.name with
        | some existing =>
          mapSet m env.name
            { name := env.name
              description := env.description <|> existing.description
              overrides := mergeWorkflowSettings existing.overrides env.overrides
              featureFlags :=
                some (objMerge (existing.featureFlags.getD []) (env.featureFlags.getD []))
              «variables» :=
                some (objMerge (existing.«variables».getD []) (env.«variables».getD [])) }
        | none => mapSet m env.name env)
      m0
    some (m1.map (·.2))

/-- ConfigMerger.merge (lines 230-249). JS `||` on version and the default
identifiers: an empty string falls back to base's value. -/
def merge (base override : SDLCConfig) : SDLCConfig :=
  { version := if truthy override.version then override.version else base.version
    workflows := mergeWorkflows base.workflows override.workflows
    environments := mergeEnvironments base.environments override.environments
    defaultWorkflow :=
      match override.defaultWorkflow with
      | some s => if truthy s then some s else base.defaultWorkflow
      | none => base.defaultWorkflow
    defaultEnvironment :=
      match override.defaultEnvironment with
      | some s => if truthy s then some s else base.defaultEnvironment
      | none => base.defaultEnvironment
    metadata := mergeMetadata base.metadata override.metadata }

/-- ConfigMerger.mergeEnvironment (lines 251-298). The deep clone through
JSON serialization is the identity on these pure values. -/
def mergeEnvironment (config : SDLCConfig) (environmentName : String) : SDLCConfig :=
  match (config.environments.getD []).find? (fun env => env.name == environmentName) with
  | none => config
  | some environment =>
    let workflows :=
      match environment.overrides with
      | none => config.workflows
      | some ov =>
        config.workflows.map fun workflow =>
          { workflow with
              globalSettings :=
                match workflow.globalSettings with
                | some gs => mergeWorkflowSettings (some gs) (some ov)
                | none => some ov }
    let envVars : MetaVal :=
      match environment.«variables» with
      | some v => MetaVal.strMap v
      | none => MetaVal.undef
    let envFlags : MetaVal :=
      match environment.featureFlags with
      | some f => MetaVal.boolMap f
      | none => MetaVal.undef
    let metadata := objMerge (config.metadata.getD [])
      [("appliedEnvironment", MetaVal.str environmentName),
       ("environmentVariables", envVars),
       ("featureFlags", envFlags)]
    { config with workflows := workflows, metadata := some metadata }

/-- PhaseManager.getPhase (lines 429-455); the manager's nullable config
field is the explicit first argument. -/
def getPhase (config : Option SDLCConfig) (workflowId phaseId : String) :
    Option SDLCPhase :=
  match config with
  | none => none
  | some cfg =>
    match cfg.workflows.find? (fun w => w.id == workflowId) with
    | none => none
    | some workflow => workflow.phases.find? (fun p => p.id == phaseId)

/-- The implicit transition synthesized by getAvailableTransitions for a
nextPhases entry (lines 489-494). -/
def implicitTransition (currentPhaseId nextPhaseId : String) : SDLCTransition :=
  { «from» := currentPhaseId
    «to» := nextPhaseId
    conditions := []
    metadata := some [("implicit", MetaVal.boolV true)] }

/-- PhaseManager.getAvailableTransitions (lines 457-504): explicit
transitions from the phase in declared order, then an implicit transition for
each nextPhases entry whose id is not among the explicit targets computed
before the loop. -/
def getAvailableTransitions (config : Option SDLCConfig)
    (workflowId currentPhaseId : String) : List SDLCTransition :=
  match config with
  | none => []
  | some cfg =>
    match cfg.workflows.find? (fun w => w.id == workflowId) with
    | none => []
    | some workflow =>
      match getPhase (some cfg) workflowId currentPhaseId with
      | none => []
      | some phase =>
        let explicitTransitions :=
          workflow.transitions.filter (fun t => t.«from» == currentPhaseId)
        let explicitTransitionTargets := explicitTransitions.map (·.«to»)
        explicitTransitions
          ++ phase.nextPhases.filterMap fun nextPhaseId =>
               if explicitTransitionTargets.contains nextPhaseId then none
               else some (implicitTransition currentPhaseId nextPhaseId)

/-- PhaseManager.canTransition (lines 506-519). -/
def canTransition (config : Option SDLCConfig) (workflowId fromId toId : String) :
    Bool :=
  (getAvailableTransitions config workflowId fromId).any (fun t => t.«to» == toId)

/-- PhaseManager.validatePhaseCompletion (lines 521-593). -/
def validatePhaseCompletion (config : Option SDLCConfig)
    (workflowId phaseId : String) : ConfigValidationResult :=
  match config with
  | none =>
    { valid := false
      errors := [{ path := "/", message := "No configuration loaded",
                   etype := ErrorType.missing }]
      warnings := [] }
  | some cfg =>
    match getPhase (some cfg) workflowId phaseId with
    | none =>
      { valid := false
        errors := [{ path := s!"/workflows/{workflowId}/phases/{phaseId}",
                     message := "Phase not found", etype := ErrorType.missing }]
        warnings := [] }
    | some phase =>
      let warnings :=
        (if phase.exitConditions.length == 0 then
          [{ path := s!"/workflows/{workflowId}/phases/{phaseId}/exitConditions",
             message := "Phase has no exit conditions defined",
             wtype := WarningType.bestPractice }]
         else [])
        ++ (if (getAvailableTransitions (some cfg) workflowId phaseId).length == 0
              && phase.nextPhases.length == 0 then
             [{ path := s!"/workflows/{workflowId}/phases/{phaseId}",
                message := "Phase has no available transitions or next phases",
                wtype := WarningType.bestPractice }]
            else [])
      { valid := true, errors := [], warnings := warnings }

/-- PhaseManager.getAllPhases (lines 595-603). -/
def getAllPhases (config : Option SDLCConfig) (workflowId : String) :
    List SDLCPhase :=
  match config with
  | none => []
  | some cfg =>
    match cfg.workflows.find? (fun w => w.id == workflowId) with
    | none => []
    | some workflow => workflow.phases

/-- PhaseManager.getWorkflow (lines 605-612). -/
def getWorkflow (config : Option SDLCConfig) (workflowId : String) :
    Option SDLCWorkflow :=
  match config with
  | none => none
  | some cfg => cfg.workflows.find? (fun w => w.id == workflowId)

/-- The string `sub` occurs contiguously inside `s`. -/
def containsSub (s sub : String) : Prop := sub.toList <:+: s.toList

instance (s sub : String) : Decidable (containsSub s sub) := by
  unfold containsSub; infer_instance

/-- A minimal phase with the given id and nextPhases list. -/
def pPhase (i : String) (nps : List String) : SDLCPhase :=
  { id := i, name := i, nextPhases := nps }

/-- A minimal explicit transition. -/
def pTrans (a b : String) : SDLCTransition := { «from» := a, «to» := b }

/-- Workflow with two identical explicit transitions p→q, q also in
p.nextPhases; passes integrity validation. -/
def dupTransWorkflow : SDLCWorkflow :=
  { id := "w", name := "w", version := "1.0.0", initialPhase := "p",
    phases := [pPhase "p" ["q"], pPhase "q" []],
    transitions := [pTrans "p" "q", pTrans "p" "q"] }

/-- Configuration holding `dupTransWorkflow`. -/
def dupTransConfig : SDLCConfig :=
  { version := "1.0.0", workflows := [dupTransWorkflow] }

/-- Workflow whose phase p lists q twice in nextPhases and has no explicit
transitions; passes integrity validation. -/
def dupNextWorkflow : SDLCWorkflow :=
  { id := "w", name := "w", version := "1.0.0", initialPhase := "p",
    phases := [pPhase "p" ["q", "q"], pPhase "q" []],
    transitions := [] }

/-- Configuration holding `dupNextWorkflow`. -/
def dupNextConfig : SDLCConfig :=
  { version := "1.0.0", workflows := [dupNextWorkflow] }

/-- Workflow where p2 is only ever a transition source, never a target. -/
def sourceOnlyWorkflow : SDLCWorkflow :=
  { id := "w", name := "w", version := "1.0.0", initialPhase := "p1",
    phases := [pPhase "p1" [], pPhase "p2" []],
    transitions := [pTrans "p2" "p1"] }

/-- Configuration holding `sourceOnlyWorkflow`. -/
def sourceOnlyConfig : SDLCConfig :=
  { version := "1.0.0", workflows := [sourceOnlyWorkflow] }

/-- Workflow with a completely unreferenced phase p2. -/
def unusedWorkflow : SDLCWorkflow :=
  { id := "w", name := "w", version := "1.0.0", initialPhase := "p1",
    phases := [pPhase "p1" [], pPhase "p2" []],
    transitions := [] }

/-- Configuration holding `unusedWorkflow`. -/
def unusedConfig : SDLCConfig :=
  { version := "1.0.0", workflows := [unusedWorkflow] }

/-- The unreferenced phase of `unusedWorkflow`. -/
def unusedP2 : SDLCPhase := pPhase "p2" []

/-- Workflow with one explicit transition p→q, q also in p.nextPhases. -/
def cleanWorkflow : SDLCWorkflow :=
  { id := "w", name := "w", version := "1.0.0", initialPhase := "p",
    phases := [pPhase "p" ["q"], pPhase "q" []],
    transitions := [pTrans "p" "q"] }

/-- Configuration holding `cleanWorkflow`. -/
def cleanConfig : SDLCConfig :=
  { version := "1.0.0", workflows := [cleanWorkflow] }

/-- Workflow with a dead-end phase p: no exit conditions, no nextPhases, no
outgoing explicit transitions. -/
def deadEndWorkflow : SDLCWorkflow :=
  { id := "w", name := "w", version := "1.0.0", initialPhase := "p",
    phases := [pPhase "p" []], transitions := [] }

/-- Configuration holding `deadEndWorkflow`. -/
def deadEndConfig : SDLCConfig :=
  { version := "1.0.0", workflows := [deadEndWorkflow] }

/-- Workflow whose phase a lists a nonexistent phase b in nextPhases. -/
def danglingWorkflow : SDLCWorkflow :=
  { id := "w", name := "w", version := "1.0.0", initialPhase := "a",
    phases := [pPhase "a" ["b"]], transitions := [] }

/-- Configuration holding `danglingWorkflow`. -/
def danglingConfig : SDLCConfig :=
  { version := "1.0.0", workflows := [danglingWorkflow] }

/-- Configuration whose initialPhase does not resolve (validation fails). -/
def badInitialConfig : SDLCConfig :=
  { version := "1.0.0",
    workflows := [{ id := "w", name := "w", version := "1.0.0",
                    initialPhase := "x", phases := [pPhase "p" []],
                    transitions := [] }] }

/-- A base configuration for the merge counterexample. -/
def plainBase : SDLCConfig := { version := "1.0.0", workflows := [] }

/-- Override configuration whose version is present but empty. -/
def emptyVersionOverride : SDLCConfig := { version := "", workflows := [] }

/-- Base settings for the settings-merge witness. -/
def wsBase : WorkflowSettings :=
  { requireApprovalForTransitions := some true
    defaultApprovers := some ["alice"]
    timeoutSettings := some { phaseTimeout := some "7 days" } }

/-- Override settings for the settings-merge witness. -/
def wsOverride : WorkflowSettings :=
  { requireApprovalForTransitions := some false
    timeoutSettings := some { taskTimeout := some "24 hours" } }

/-- Membership in `withIdxFrom` projects to membership in the list. -/
lemma mem_of_mem_withIdxFrom {α : Type} {k : Nat} {l : List α} {q : Nat × α}
    (h : q ∈ withIdxFrom k l) : q.2 ∈ l := by
  induction l generalizing k with
  | nil => simp [withIdxFrom] at h
  | cons a t ih =>
    rw [withIdxFrom, List.mem_cons] at h
    rcases h with h | h
    · simp [h]
    · exact List.mem_cons_of_mem a (ih h)

/-- An element at index `i` appears in `withIdxFrom k` with index `k + i`. -/
lemma getElem?_mem_withIdxFrom {α : Type} {l : List α} {i : Nat} {a : α}
    (k : Nat) (h : l[i]? = some a) : (k + i, a) ∈ withIdxFrom k l := by
  induction l generalizing i k with
  | nil => simp at h
  | cons b t ih =>
    cases i with
    | zero =>
      rw [List.getElem?_cons_zero, Option.some_inj] at h
      subst h
      simp [withIdxFrom]
    | succ j =>
      rw [List.getElem?_cons_succ] at h
      have hmem := ih (k + 1) h
      rw [withIdxFrom, List.mem_cons]
      right
      have : k + 1 + j = k + (j + 1) := by omega
      rwa [this] at hmem

/-- An element at index `i` appears in `withIdx` with index `i`. -/
lemma getElem?_mem_withIdx {α : Type} {l : List α} {i : Nat} {a : α}
    (h : l[i]? = some a) : (i, a) ∈ withIdx l := by
  have := getElem?_mem_withIdxFrom 0 h
  rwa [Nat.zero_add] at this

/-- `getPhase` through a found workflow and a found phase. -/
lemma getPhase_eq {cfg : SDLCConfig} {w : SDLCWorkflow} {p : SDLCPhase}
    (hw : cfg.workflows.find? (fun x => x.id == w.id) = some w)
    (hp : w.phases.find? (fun x => x.id == p.id) = some p) :
    getPhase (some cfg) w.id p.id = some p := by
  simp only [getPhase]
  rw [hw]
  exact hp

/-- `getAvailableTransitions` through a found workflow and phase unfolds to
the explicit transitions followed by the synthesized implicit ones. -/
lemma getAvailableTransitions_eq {cfg : SDLCConfig} {w : SDLCWorkflow}
    {p : SDLCPhase}
    (hw : cfg.workflows.find? (fun x => x.id == w.id) = some w)
    (hp : w.phases.find? (fun x => x.id == p.id) = some p) :
    getAvailableTransitions (some cfg) w.id p.id =
      (w.transitions.filter (fun t => t.«from» == p.id))
        ++ p.nextPhases.filterMap (fun n =>
             if ((w.transitions.filter (fun t => t.«from» == p.id)).map
                   (·.«to»)).contains n then none
             else some (implicitTransition p.id n)) := by
  simp only [getAvailableTransitions]
  rw [hw, getPhase_eq hw hp]

/-- The targets of the synthesized implicit transitions are exactly the
nextPhases entries not already covered by an explicit target. -/
lemma implicit_targets (ph : String) (tgts : List String) (l : List String) :
    ((l.filterMap fun n =>
        if tgts.contains n then none
        else some (implicitTransition ph n)).map (·.«to»))
      = l.filter (fun n => !(tgts.contains n)) := by
  induction l with
  | nil => simp
  | cons a t ih =>
    by_cases h : a ∈ tgts
    · simp only [List.filterMap_cons, List.filter_cons]
      simp [h]
      simpa using ih
    · simp only [List.filterMap_cons, List.filter_cons]
      simp [h, implicitTransition]
      simpa using ih

/-- In a list of transitions with pairwise-distinct targets, filtering on a
member's target yields exactly that member. -/
lemma filter_target_eq_single {l : List SDLCTransition} {t : SDLCTransition}
    (hnd : (l.map (·.«to»)).Nodup) (ht : t ∈ l) :
    l.filter (fun x => x.«to» == t.«to») = [t] := by
  induction l with
  | nil => cases ht
  | cons a r ih =>
    rw [List.map_cons, List.nodup_cons] at hnd
    rcases List.mem_cons.mp ht with rfl | hmem
    · have hnil : r.filter (fun x => x.«to» == t.«to») = [] := by
        rw [List.filter_eq_nil_iff]
        intro x hx hbeq
        exact hnd.1 (List.mem_map.mpr ⟨x, hx, (beq_iff_eq.mp hbeq)⟩)
      rw [List.filter_cons, if_pos (by simp)]
      rw [hnil]
    · have hne : (a.«to» == t.«to») = false := by
        rw [beq_eq_false_iff_ne]
        intro he
        exact hnd.1 (he ▸ List.mem_map.mpr ⟨t, hmem, rfl⟩)
      rw [List.filter_cons, if_neg (by simp [hne])]
      exact ih hnd.2 hmem

/-- C10: navigation never checks that transition targets name existing
phases. For `danglingConfig` held by the phase manager, phase a exists, no
phase with id b exists, yet canTransition reports a→b legal and
getAvailableTransitions lists a transition targeting b. -/
theorem canTransition_dangling_target :
    getPhase (some danglingConfig) "w" "a" ≠ none ∧
    getPhase (some danglingConfig) "w" "b" = none ∧
    (∀ p ∈ danglingWorkflow.phases, p.id ≠ "b") ∧
    canTransition (some danglingConfig) "w" "a" "b" = true ∧
    ((getAvailableTransitions (some danglingConfig) "w" "a").map
      (·.«to»)).contains "b" = true := by
  decide

/-- C5 counterexample: override's version is present (the field always is)
but empty, and merge keeps base's version instead of override's, so
plain field-presence precedence fails. -/
theorem merge_empty_version_counterexample :
    emptyVersionOverride.version = "" ∧
    (merge plainBase emptyVersionOverride).version = "1.0.0" ∧
    (merge plainBase emptyVersionOverride).version ≠ emptyVersionOverride.version := by
  decide

/-- C5 (amended): merge takes override's version, defaultWorkflow and
defaultEnvironment when override's value is present and non-empty (JS
truthy), and base's value otherwise. -/
theorem merge_scalar_precedence (base override : SDLCConfig) :
    (override.version ≠ "" → (merge base override).version = override.version) ∧
    (override.version = "" → (merge base override).version = base.version) ∧
    (∀ s, override.defaultWorkflow = some s → s ≠ "" →
      (merge base override).defaultWorkflow = some s) ∧
    (override.defaultWorkflow = none ∨ override.defaultWorkflow = some "" →
      (merge base override).defaultWorkflow = base.defaultWorkflow) ∧
    (∀ s, override.defaultEnvironment = some s → s ≠ "" →
      (merge base override).defaultEnvironment = some s) ∧
    (override.defaultEnvironment = none ∨ override.defaultEnvironment = some "" →
      (merge base override).defaultEnvironment = base.defaultEnvironment) := by
  refine ⟨?_, ?_, ?_, ?_, ?_, ?_⟩
  · intro h
    simp [merge, truthy, h]
  · intro h
    simp [merge, truthy, h]
  · intro s hs hne
    simp [merge, truthy, hs, hne]
  · rintro (h | h) <;> simp [merge, truthy, h]
  · intro s hs hne
    simp [merge, truthy, hs, hne]
  · rintro (h | h) <;> simp [merge, truthy, h]

/-- Witness for the amended C5 theorem at a concrete input. -/
theorem merge_scalar_precedence_witness :
    (merge plainBase { version := "2.0.0", workflows := [] }).version = "2.0.0" := by
  have h := merge_scalar_precedence plainBase { version := "2.0.0", workflows := [] }
  exact h.1 (by decide)

/-- C7: mergeEnvironment for a name that is not the name of any entry of
config.environments (also when environments is absent) returns the input
configuration unchanged, signalling no error. -/
theorem mergeEnvironment_absent_noop (cfg : SDLCConfig) (name : String)
    (h : ∀ env ∈ cfg.environments.getD [], env.name ≠ name) :
    mergeEnvironment cfg name = cfg := by
  have hf : (cfg.environments.getD []).find? (fun env => env.name == name) = none := by
    rw [List.find?_eq_none]
    intro x hx
    simpa using h x hx
  simp only [mergeEnvironment, hf]

/-- Witness for C7 at a concrete input without environments. -/
theorem mergeEnvironment_absent_noop_witness :
    mergeEnvironment cleanConfig "prod" = cleanConfig :=
  mergeEnvironment_absent_noop cleanConfig "prod" (by decide)

/-- C4: for both settings present, the merged settings take override's
approval flag when explicitly set (including false) else base's; override's
arrays wholesale when supplied else base's; and merge timeoutSettings and
integrations key by key with override winning per present key and base's
value kept for keys override does not supply. -/
theorem mergeWorkflowSettings_precedence (b o : WorkflowSettings) :
    ∃ r, mergeWorkflowSettings (some b) (some o) = some r ∧
      (∀ v, o.requireApprovalForTransitions = some v →
        r.requireApprovalForTransitions = some v) ∧
      (o.requireApprovalForTransitions = none →
        r.requireApprovalForTransitions = b.requireApprovalForTransitions) ∧
      (∀ l, o.defaultApprovers = some l → r.defaultApprovers = some l) ∧
      (o.defaultApprovers = none → r.defaultApprovers = b.defaultApprovers) ∧
      (∀ l, o.notificationChannels = some l → r.notificationChannels = some l) ∧
      (o.notificationChannels = none →
        r.notificationChannels = b.notificationChannels) ∧
      (∃ ts, r.timeoutSettings = some ts ∧
        (∀ v, o.timeoutSettings.bind TimeoutSettings.phaseTimeout = some v →
          ts.phaseTimeout = some v) ∧
        (o.timeoutSettings.bind TimeoutSettings.phaseTimeout = none →
          ts.phaseTimeout = b.timeoutSettings.bind TimeoutSettings.phaseTimeout) ∧
        (∀ v, o.timeoutSettings.bind TimeoutSettings.taskTimeout = some v →
          ts.taskTimeout = some v) ∧
        (o.timeoutSettings.bind TimeoutSettings.taskTimeout = none →
          ts.taskTimeout = b.timeoutSettings.bind TimeoutSettings.taskTimeout) ∧
        (∀ v, o.timeoutSettings.bind TimeoutSettings.approvalTimeout = some v →
          ts.approvalTimeout = some v) ∧
        (o.timeoutSettings.bind TimeoutSettings.approvalTimeout = none →
          ts.approvalTimeout = b.timeoutSettings.bind TimeoutSettings.approvalTimeout) ∧
        (∀ v, o.timeoutSettings.bind TimeoutSettings.warningThreshold = some v →
          ts.warningThreshold = some v) ∧
        (o.timeoutSettings.bind TimeoutSettings.warningThreshold = none →
          ts.warningThreshold = b.timeoutSettings.bind TimeoutSettings.warningThreshold)) ∧
      (∃ ig, r.integrations = some ig ∧
        (∀ v, o.integrations.bind IntegrationSettings.githubEnabled = some v →
          ig.githubEnabled = some v) ∧
        (o.integrations.bind IntegrationSettings.githubEnabled = none →
          ig.githubEnabled = b.integrations.bind IntegrationSettings.githubEnabled) ∧
        (∀ v, o.integrations.bind IntegrationSettings.slackEnabled = some v →
          ig.slackEnabled = some v) ∧
        (o.integrations.bind IntegrationSettings.slackEnabled = none →
          ig.slackEnabled = b.integrations.bind IntegrationSettings.slackEnabled) ∧
        (∀ v, o.integrations.bind IntegrationSettings.emailEnabled = some v →
          ig.emailEnabled = some v) ∧
        (o.integrations.bind IntegrationSettings.emailEnabled = none →
          ig.emailEnabled = b.integrations.bind IntegrationSettings.emailEnabled) ∧
        (∀ v, o.integrations.bind IntegrationSettings.webhookUrl = some v →
          ig.webhookUrl = some v) ∧
        (o.integrations.bind IntegrationSettings.webhookUrl = none →
          ig.webhookUrl = b.integrations.bind IntegrationSettings.webhookUrl) ∧
        (∀ v, o.integrations.bind IntegrationSettings.customIntegrations = some v →
          ig.customIntegrations = some v) ∧
        (o.integrations.bind IntegrationSettings.customIntegrations = none →
          ig.customIntegrations = b.integrations.bind IntegrationSettings.customIntegrations)) := by
  refine ⟨_, rfl, ?_, ?_, ?_, ?_, ?_, ?_, ⟨_, rfl, ?_, ?_, ?_, ?_, ?_, ?_, ?_, ?_⟩,
    ⟨_, rfl, ?_, ?_, ?_, ?_, ?_, ?_, ?_, ?_, ?_, ?_⟩⟩ <;>
    first
      | (intro v h
         simp [spreadTimeout, spreadIntegrations, h])
      | (intro h
         simp [spreadTimeout, spreadIntegrations, h])

/-- Witness for C4 at concrete settings values. -/
theorem mergeWorkflowSettings_precedence_witness :
    ∃ r, mergeWorkflowSettings (some wsBase) (some wsOverride) = some r ∧
      r.requireApprovalForTransitions = some false ∧
      r.defaultApprovers = some ["alice"] := by
  obtain ⟨r, hr, hreq, -, -, happ, -, -, -, -⟩ :=
    mergeWorkflowSettings_precedence wsBase wsOverride
  refine ⟨r, hr, hreq false rfl, ?_⟩
  rw [happ rfl]
  rfl

/-- C1 counterexample: two loadable configurations on which
getAvailableTransitions returns two transitions with the same target q from
phase p — once through two identical explicit transitions (with q also in
p.nextPhases), once through a duplicated nextPhases entry. -/
theorem dup_targets_counterexample :
    ((validate [] dupTransConfig).valid = true ∧
      dupTransWorkflow.transitions.head? = some (pTrans "p" "q") ∧
      ((getAvailableTransitions (some dupTransConfig) "w" "p").filter
        (fun t => t.«to» == "q")).length = 2) ∧
    ((validate [] dupNextConfig).valid = true ∧
      ((getAvailableTransitions (some dupNextConfig) "w" "p").filter
        (fun t => t.«to» == "q")).length = 2) := by
  decide

/-- C8: for an existing phase with no exit conditions, no nextPhases and no
outgoing explicit transitions, validatePhaseCompletion returns valid with no
errors and exactly two best-practice warnings, one mentioning missing exit
conditions and one mentioning missing transitions. -/
theorem validatePhaseCompletion_dead_end
    (cfg : SDLCConfig) (w : SDLCWorkflow) (p : SDLCPhase)
    (hw : cfg.workflows.find? (fun x => x.id == w.id) = some w)
    (hp : w.phases.find? (fun x => x.id == p.id) = some p)
    (hec : p.exitConditions = [])
    (hnp : p.nextPhases = [])
    (hnt : ∀ t ∈ w.transitions, t.«from» ≠ p.id) :
    (validatePhaseCompletion (some cfg) w.id p.id).valid = true ∧
    (validatePhaseCompletion (some cfg) w.id p.id).errors = [] ∧
    ∃ w1 w2, (validatePhaseCompletion (some cfg) w.id p.id).warnings = [w1, w2] ∧
      w1.wtype = WarningType.bestPractice ∧
      w2.wtype = WarningType.bestPractice ∧
      containsSub w1.message "no exit conditions" ∧
      containsSub w2.message "no available transitions" := by
  have hfil : w.transitions.filter (fun t => t.«from» == p.id) = [] := by
    rw [List.filter_eq_nil_iff]
    intro t ht
    simpa using hnt t ht
  have hav : getAvailableTransitions (some cfg) w.id p.id = [] := by
    rw [getAvailableTransitions_eq hw hp, hfil, hnp]
    rfl
  have hres : validatePhaseCompletion (some cfg) w.id p.id =
      { valid := true, errors := [],
        warnings := [
          { path := s!"/workflows/{w.id}/phases/{p.id}/exitConditions",
            message := "Phase has no exit conditions defined",
            wtype := WarningType.bestPractice },
          { path := s!"/workflows/{w.id}/phases/{p.id}",
            message := "Phase has no available transitions or next phases",
            wtype := WarningType.bestPractice }] } := by
    simp [validatePhaseCompletion, getPhase_eq hw hp, hav, hec, hnp]
  rw [hres]
  refine ⟨rfl, rfl, _, _, rfl, rfl, rfl, ?_, ?_⟩
  · show containsSub "Phase has no exit conditions defined" "no exit conditions"
    decide
  · show containsSub "Phase has no available transitions or next phases"
      "no available transitions"
    decide

/-- C3 counterexample: phase p2 of `sourceOnlyConfig` is not the initial
phase, is never a transition target nor a nextPhases entry, and is the
source of an explicit transition — yet validate emits no warning at all, in
particular no unused warning for it. -/
theorem source_only_phase_not_flagged :
    ("p2" ≠ sourceOnlyWorkflow.initialPhase) ∧
    sourceOnlyWorkflow.phases[1]? = some (pPhase "p2" []) ∧
    (∀ t ∈ sourceOnlyWorkflow.transitions, t.«to» ≠ "p2") ∧
    (∀ q ∈ sourceOnlyWorkflow.phases, "p2" ∉ q.nextPhases) ∧
    (∃ t ∈ sourceOnlyWorkflow.transitions, t.«from» = "p2") ∧
    (validate [] sourceOnlyConfig).warnings = [] := by
  decide

/-- C3 (amended): a phase that is not the (truthy) initial phase and appears
neither as the from nor the to of any transition nor in any phase's
nextPhases gets an unused warning at its workflow/phase index path. -/
theorem unused_warning_of_unreferenced (se : List ValidationError)
    (cfg : SDLCConfig) (wIndex : Nat) (w : SDLCWorkflow) (pIndex : Nat)
    (p : SDLCPhase)
    (hw : cfg.workflows[wIndex]? = some w)
    (hp : w.phases[pIndex]? = some p)
    (hinit : truthy w.initialPhase = true → p.id ≠ w.initialPhase)
    (htr : ∀ t ∈ w.transitions, t.«from» ≠ p.id ∧ t.«to» ≠ p.id)
    (hnp : ∀ q ∈ w.phases, p.id ∉ q.nextPhases) :
    { path := s!"/workflows/{wIndex}/phases/{pIndex}",
      message := s!"Phase '{p.id}' is not referenced by any transition or phase",
      wtype := WarningType.unused } ∈ (validate se cfg).warnings := by
  have hrefmem : p.id ∉ referencedPhases w := by
    unfold referencedPhases
    intro hmem
    rcases List.mem_append.mp hmem with hmem | hmem
    · rcases List.mem_append.mp hmem with hmem | hmem
      · by_cases hto : truthy w.initialPhase = true
        · rw [if_pos hto] at hmem
          simp only [List.mem_singleton] at hmem
          exact hinit hto hmem
        · rw [if_neg hto] at hmem
          simp at hmem
      · rcases List.mem_flatMap.mp hmem with ⟨t, ht, hin⟩
        simp only [List.mem_cons, List.mem_singleton, List.not_mem_nil,
          or_false] at hin
        rcases hin with h | h
        · exact (htr t ht).1 h.symm
        · exact (htr t ht).2 h.symm
    · rcases List.mem_flatMap.mp hmem with ⟨q, hq, hin⟩
      exact hnp q hq hin
  have hcont : (referencedPhases w).contains p.id = false := by
    simpa using hrefmem
  have hwarn : (validate se cfg).warnings
      = unusedWarnings cfg ++ deprecatedWarnings cfg := rfl
  rw [hwarn]
  apply List.mem_append_left
  unfold unusedWarnings
  apply List.mem_flatMap.mpr
  refine ⟨(wIndex, w), getElem?_mem_withIdx hw, ?_⟩
  apply List.mem_filterMap.mpr
  refine ⟨(pIndex, p), getElem?_mem_withIdx hp, ?_⟩
  simp [hrefmem]

/-- Witness for the amended C3 theorem at a concrete configuration. -/
theorem unused_warning_of_unreferenced_witness :
    { path := s!"/workflows/{(0 : Nat)}/phases/{(1 : Nat)}",
      message := s!"Phase '{unusedP2.id}' is not referenced by any transition or phase",
      wtype := WarningType.unused } ∈ (validate [] unusedConfig).warnings :=
  unused_warning_of_unreferenced [] unusedConfig 0 unusedWorkflow 1
    unusedP2 (by decide) (by decide) (by decide) (by decide) (by decide)

/-- Witness for C8 at a concrete dead-end phase. -/
theorem validatePhaseCompletion_dead_end_witness :
    (validatePhaseCompletion (some deadEndConfig) deadEndWorkflow.id
      (pPhase "p" []).id).valid = true ∧
    (validatePhaseCompletion (some deadEndConfig) deadEndWorkflow.id
      (pPhase "p" []).id).errors = [] ∧
    ∃ w1 w2, (validatePhaseCompletion (some deadEndConfig) deadEndWorkflow.id
        (pPhase "p" []).id).warnings = [w1, w2] ∧
      w1.wtype = WarningType.bestPractice ∧
      w2.wtype = WarningType.bestPractice ∧
      containsSub w1.message "no exit conditions" ∧
      containsSub w2.message "no available transitions" :=
  validatePhaseCompletion_dead_end deadEndConfig deadEndWorkflow (pPhase "p" [])
    (by decide) (by decide) rfl rfl (by decide)

/-- The join of a nonempty list is at least as long as its first element. -/
lemma joinSep_cons_length (sep a : String) (l : List String) :
    a.length ≤ (joinSep sep (a :: l)).length := by
  cases l with
  | nil => simp [joinSep]
  | cons b r =>
    show a.length ≤ (a ++ sep ++ joinSep sep (b :: r)).length
    rw [String.length_append, String.length_append]
    omega

/-- C9: when validation yields a non-empty error list, loading fails with
exactly the literal prefix followed by the comma-joined path-message pairs of
all collected errors in order. -/
theorem loadFromString_aggregated_error (schemaErrors : List ValidationError)
    (config : SDLCConfig)
    (h : (validate schemaErrors config).errors ≠ []) :
    loadFromString schemaErrors config =
      Except.error ("Invalid configuration: " ++
        joinSep ", " ((validate schemaErrors config).errors.map
          (fun e => e.path ++ ": " ++ e.message))) := by
  have hval : (validate schemaErrors config).valid = false := by
    have heq : (validate schemaErrors config).valid
        = ((validate schemaErrors config).errors.length == 0) := rfl
    rw [heq]
    simp [h]
  obtain ⟨e, rest, herr⟩ := List.exists_cons_of_ne_nil h
  have hne : joinSep ", " ((validate schemaErrors config).errors.map
      (fun e => e.path ++ ": " ++ e.message)) ≠ "" := by
    rw [herr, List.map_cons]
    intro hemp
    have hlen := joinSep_cons_length ", " (e.path ++ ": " ++ e.message)
      (rest.map (fun e => e.path ++ ": " ++ e.message))
    rw [hemp] at hlen
    rw [String.length_append, String.length_append] at hlen
    rw [show ((": " : String).length = 2) from rfl] at hlen
    rw [show (("" : String).length = 0) from rfl] at hlen
    omega
  simp only [loadFromString, hval, Bool.false_eq_true, if_false]
  rw [if_neg hne]

/-- Witness for C9 on a configuration whose initialPhase dangles. -/
theorem loadFromString_aggregated_error_witness :
    loadFromString [] badInitialConfig =
      Except.error ("Invalid configuration: " ++
        joinSep ", " ((validate [] badInitialConfig).errors.map
          (fun e => e.path ++ ": " ++ e.message))) :=
  loadFromString_aggregated_error [] badInitialConfig (by decide)

/-- C2: when every initialPhase, every nextPhases id, every task dependency
and both endpoints of every transition resolve to an existing sibling id,
validate (with no schema errors) returns valid with an empty error list. -/
theorem validate_valid_of_refs_resolve (cfg : SDLCConfig)
    (hinit : ∀ w ∈ cfg.workflows, w.initialPhase ∈ phaseIdsOf w)
    (hnext : ∀ w ∈ cfg.workflows, ∀ p ∈ w.phases, ∀ n ∈ p.nextPhases,
      n ∈ phaseIdsOf w)
    (hdep : ∀ w ∈ cfg.workflows, ∀ p ∈ w.phases, ∀ t ∈ p.tasks,
      ∀ d ∈ t.dependencies.getD [], d ∈ p.tasks.map (·.id))
    (htr : ∀ w ∈ cfg.workflows, ∀ t ∈ w.transitions,
      t.«from» ∈ phaseIdsOf w ∧ t.«to» ∈ phaseIdsOf w) :
    (validate [] cfg).valid = true ∧ (validate [] cfg).errors = [] := by
  have herr : (validate [] cfg).errors = [] := by
    have heq : (validate [] cfg).errors
        = (withIdx cfg.workflows).flatMap
            (fun q => workflowRefErrors q.1 q.2) := by
      show ([] : List ValidationError) ++ _ = _
      rw [List.nil_append]
    rw [heq, List.flatMap_eq_nil_iff]
    rintro ⟨wi, w⟩ hq
    have hwmem : w ∈ cfg.workflows := mem_of_mem_withIdxFrom hq
    show workflowRefErrors wi w = []
    unfold workflowRefErrors
    rw [List.append_eq_nil, List.append_eq_nil]
    refine ⟨⟨?_, ?_⟩, ?_⟩
    · simp [initialPhaseErrors, hinit w hwmem]
    · rw [List.flatMap_eq_nil_iff]
      rintro ⟨pi, p⟩ hp
      have hpmem : p ∈ w.phases := mem_of_mem_withIdxFrom hp
      show nextPhaseErrors wi pi (phaseIdsOf w) p ++ taskDepErrors wi pi p = []
      rw [List.append_eq_nil]
      constructor
      · rw [nextPhaseErrors, List.filterMap_eq_nil_iff]
        rintro ⟨ni, n⟩ hn
        have hnmem : n ∈ p.nextPhases := mem_of_mem_withIdxFrom hn
        simp [hnext w hwmem p hpmem n hnmem]
      · rw [taskDepErrors, List.flatMap_eq_nil_iff]
        rintro ⟨ti, t⟩ ht
        have htmem : t ∈ p.tasks := mem_of_mem_withIdxFrom ht
        rw [List.filterMap_eq_nil_iff]
        rintro ⟨di, d⟩ hd
        have hdmem : d ∈ t.dependencies.getD [] := mem_of_mem_withIdxFrom hd
        simp [hdep w hwmem p hpmem t htmem d hdmem]
    · rw [transitionErrors, List.flatMap_eq_nil_iff]
      rintro ⟨ti, t⟩ ht
      have htmem : t ∈ w.transitions := mem_of_mem_withIdxFrom ht
      simp [(htr w hwmem t htmem).1, (htr w hwmem t htmem).2]
  refine ⟨?_, herr⟩
  have heqv : (validate [] cfg).valid = ((validate [] cfg).errors.length == 0) := rfl
  rw [heqv, herr]
  rfl

/-- Witness for C2 on a fully resolving concrete configuration. -/
theorem validate_valid_of_refs_resolve_witness :
    (validate [] cleanConfig).valid = true ∧ (validate [] cleanConfig).errors = [] :=
  validate_valid_of_refs_resolve cleanConfig (by decide) (by decide) (by decide)
    (by decide)

/-- C1 (amended): when the explicit transitions out of p have pairwise
distinct targets, getAvailableTransitions has pairwise distinct targets
provided p.nextPhases also has no duplicates, and for an explicit transition
t out of p whose target is also in p.nextPhases the result holds exactly one
entry targeting t.to — the explicit one, with no implicit duplicate. -/
theorem getAvailableTransitions_unique_targets
    (cfg : SDLCConfig) (w : SDLCWorkflow) (p : SDLCPhase)
    (hw : cfg.workflows.find? (fun x => x.id == w.id) = some w)
    (hp : w.phases.find? (fun x => x.id == p.id) = some p)
    (hex : ((w.transitions.filter (fun t => t.«from» == p.id)).map
      (·.«to»)).Nodup) :
    (p.nextPhases.Nodup →
      ((getAvailableTransitions (some cfg) w.id p.id).map (·.«to»)).Nodup) ∧
    (∀ t ∈ w.transitions, t.«from» = p.id → t.«to» ∈ p.nextPhases →
      (getAvailableTransitions (some cfg) w.id p.id).filter
        (fun x => x.«to» == t.«to») = [t]) := by
  have hav := getAvailableTransitions_eq hw hp
  constructor
  · intro hnd
    rw [hav, List.map_append, implicit_targets]
    rw [List.nodup_append]
    refine ⟨hex, hnd.filter _, ?_⟩
    intro a ha hmem
    have hneg := (List.mem_filter.mp hmem).2
    have hca : ((w.transitions.filter (fun t => t.«from» == p.id)).map
        (·.«to»)).contains a = true := by simpa using ha
    rw [hca] at hneg
    simp at hneg
  · intro t ht hfrom hto
    have htexpl : t ∈ w.transitions.filter (fun x => x.«from» == p.id) :=
      List.mem_filter.mpr ⟨ht, by simp [hfrom]⟩
    have httgt : t.«to» ∈ (w.transitions.filter
        (fun x => x.«from» == p.id)).map (·.«to») :=
      List.mem_map.mpr ⟨t, htexpl, rfl⟩
    rw [hav, List.filter_append, filter_target_eq_single hex htexpl]
    have himp : (p.nextPhases.filterMap (fun n =>
        if ((w.transitions.filter (fun x => x.«from» == p.id)).map
            (·.«to»)).contains n then none
        else some (implicitTransition p.id n))).filter
        (fun x => x.«to» == t.«to») = [] := by
      rw [List.filter_eq_nil_iff]
      intro x hx
      rcases List.mem_filterMap.mp hx with ⟨n, hn, hfn⟩
      by_cases hc : ((w.transitions.filter (fun x => x.«from» == p.id)).map
          (·.«to»)).contains n = true
      · rw [if_pos hc] at hfn
        cases hfn
      · rw [if_neg hc] at hfn
        rw [Option.some_inj] at hfn
        subst hfn
        intro hbeq
        have hn' : n = t.«to» := by simpa [implicitTransition] using hbeq
        rw [hn'] at hc
        exact hc (by simpa using httgt)
    rw [himp, List.append_nil]

/-- Witness for the amended C1 theorem at a concrete configuration. -/
theorem getAvailableTransitions_unique_targets_witness :
    (getAvailableTransitions (some cleanConfig) cleanWorkflow.id
      (pPhase "p" ["q"]).id).filter
        (fun x => x.«to» == (pTrans "p" "q").«to») = [pTrans "p" "q"] := by
  have h := getAvailableTransitions_unique_targets cleanConfig cleanWorkflow
    (pPhase "p" ["q"]) (by decide) (by decide) (by decide)
  exact h.2 (pTrans "p" "q") (by decide) rfl (by decide)

/-- The key set Boolean of mapSet's membership test agrees with key-list
membership. -/
lemma any_key_iff {α : Type} (m : List (String × α)) (k : String) :
    m.any (fun p => p.1 == k) = true ↔ k ∈ m.map (·.1) := by
  rw [List.any_eq_true]
  constructor
  · rintro ⟨q, hq, hbeq⟩
    exact List.mem_map.mpr ⟨q, hq, beq_iff_eq.mp hbeq⟩
  · intro hk
    rcases List.mem_map.mp hk with ⟨q, hq, he⟩
    exact ⟨q, hq, by simp [he]⟩

/-- Updating an existing key keeps the key list. -/
lemma mapSet_keys_of_mem {α : Type} {m : List (String × α)} {k : String}
    (v : α) (h : k ∈ m.map (·.1)) :
    (mapSet m k v).map (·.1) = m.map (·.1) := by
  unfold mapSet
  rw [if_pos ((any_key_iff m k).mpr h)]
  rw [List.map_map]
  apply List.map_congr_left
  intro q hq
  simp only [Function.comp_apply]
  split
  next hbeq => exact (beq_iff_eq.mp hbeq).symm
  next => rfl

/-- Inserting a fresh key appends it to the key list. -/
lemma mapSet_keys_of_not_mem {α : Type} {m : List (String × α)} {k : String}
    (v : α) (h : k ∉ m.map (·.1)) :
    (mapSet m k v).map (·.1) = m.map (·.1) ++ [k] := by
  unfold mapSet
  rw [if_neg (fun hc => h ((any_key_iff m k).mp hc))]
  rw [List.map_append]
  rfl

/-- Key membership after a mapSet. -/
lemma mem_keys_mapSet {α : Type} {m : List (String × α)} {k s : String}
    {v : α} : s ∈ (mapSet m k v).map (·.1) ↔ s ∈ m.map (·.1) ∨ s = k := by
  by_cases h : k ∈ m.map (·.1)
  · rw [mapSet_keys_of_mem v h]
    constructor
    · exact Or.inl
    · rintro (hs | rfl)
      · exact hs
      · exact h
  · rw [mapSet_keys_of_not_mem v h, List.mem_append]
    simp

/-- mapSet keeps the key list duplicate-free. -/
lemma nodup_keys_mapSet {α : Type} {m : List (String × α)} {k : String}
    {v : α} (h : (m.map (·.1)).Nodup) :
    ((mapSet m k v).map (·.1)).Nodup := by
  by_cases hk : k ∈ m.map (·.1)
  · rw [mapSet_keys_of_mem v hk]
    exact h
  · rw [mapSet_keys_of_not_mem v hk, List.nodup_append]
    refine ⟨h, List.nodup_singleton k, ?_⟩
    intro a ha hmem
    rw [List.mem_singleton] at hmem
    subst hmem
    exact hk ha

/-- mapSet preserves a key-of-value invariant when the new value's key
matches. -/
lemma vals_mapSet {α : Type} {f : α → String} {m : List (String × α)}
    {k : String} {v : α} (hm : ∀ q ∈ m, f q.2 = q.1) (hv : f v = k) :
    ∀ q ∈ mapSet m k v, f q.2 = q.1 := by
  intro q hq
  unfold mapSet at hq
  by_cases hc : m.any (fun p => p.1 == k) = true
  · rw [if_pos hc] at hq
    rcases List.mem_map.mp hq with ⟨r, hr, he⟩
    subst he
    split
    next => exact hv
    next => exact hm r hr
  · rw [if_neg hc] at hq
    rcases List.mem_append.mp hq with hq | hq
    · exact hm q hq
    · rw [List.mem_singleton] at hq
      subst hq
      exact hv

/-- Key membership through a fold of key-setting steps. -/
lemma foldl_keys_mem {α β : Type} (key : β → String)
    (step : List (String × α) → β → List (String × α))
    (hkeys : ∀ m b s, s ∈ (step m b).map (·.1) ↔ s ∈ m.map (·.1) ∨ s = key b)
    (l : List β) (m : List (String × α)) (s : String) :
    s ∈ (l.foldl step m).map (·.1) ↔ s ∈ m.map (·.1) ∨ s ∈ l.map key := by
  induction l generalizing m with
  | nil => simp
  | cons b rest ih =>
    rw [List.foldl_cons, ih, hkeys, List.map_cons, List.mem_cons]
    tauto

/-- Key distinctness through a fold of key-setting steps. -/
lemma foldl_keys_nodup {α β : Type}
    (step : List (String × α) → β → List (String × α))
    (hnd : ∀ m b, (m.map (·.1)).Nodup → ((step m b).map (·.1)).Nodup)
    (l : List β) (m : List (String × α)) (hm : (m.map (·.1)).Nodup) :
    ((l.foldl step m).map (·.1)).Nodup := by
  induction l generalizing m with
  | nil => exact hm
  | cons b rest ih => exact ih _ (hnd m b hm)

/-- A key-of-value invariant through a fold of key-setting steps. -/
lemma foldl_vals {α β : Type} (f : α → String)
    (step : List (String × α) → β → List (String × α))
    (hval : ∀ m b, (∀ q ∈ m, f q.2 = q.1) → ∀ q ∈ step m b, f q.2 = q.1)
    (l : List β) (m : List (String × α)) (hm : ∀ q ∈ m, f q.2 = q.1) :
    ∀ q ∈ l.foldl step m, f q.2 = q.1 := by
  induction l generalizing m with
  | nil => exact hm
  | cons b rest ih => exact ih _ (hval m b hm)

/-- wfStep0 sets exactly the workflow's id as key. -/
lemma wfStep0_keys : ∀ (m : List (String × SDLCWorkflow)) (w : SDLCWorkflow)
    (s : String), s ∈ (wfStep0 m w).map (·.1) ↔ s ∈ m.map (·.1) ∨ s = w.id :=
  fun _ _ _ => mem_keys_mapSet

/-- wfStep1 sets exactly the workflow's id as key in both branches. -/
lemma wfStep1_keys : ∀ (m : List (String × SDLCWorkflow)) (w : SDLCWorkflow)
    (s : String), s ∈ (wfStep1 m w).map (·.1) ↔ s ∈ m.map (·.1) ∨ s = w.id := by
  intro m w s
  unfold wfStep1
  cases mapGet m w.id <;> exact mem_keys_mapSet

/-- wfStep0 keeps keys duplicate-free. -/
lemma wfStep0_nodup : ∀ (m : List (String × SDLCWorkflow)) (w : SDLCWorkflow),
    (m.map (·.1)).Nodup → ((wfStep0 m w).map (·.1)).Nodup :=
  fun _ _ h => nodup_keys_mapSet h

/-- wfStep1 keeps keys duplicate-free. -/
lemma wfStep1_nodup : ∀ (m : List (String × SDLCWorkflow)) (w : SDLCWorkflow),
    (m.map (·.1)).Nodup → ((wfStep1 m w).map (·.1)).Nodup := by
  intro m w h
  unfold wfStep1
  cases mapGet m w.id <;> exact nodup_keys_mapSet h

/-- wfStep0 stores each workflow under its own id. -/
lemma wfStep0_vals : ∀ (m : List (String × SDLCWorkflow)) (w : SDLCWorkflow),
    (∀ q ∈ m, q.2.id = q.1) → ∀ q ∈ wfStep0 m w, q.2.id = q.1 :=
  fun _ _ hm => vals_mapSet hm rfl

/-- wfStep1 stores each (possibly merged) workflow under its own id. -/
lemma wfStep1_vals : ∀ (m : List (String × SDLCWorkflow)) (w : SDLCWorkflow),
    (∀ q ∈ m, q.2.id = q.1) → ∀ q ∈ wfStep1 m w, q.2.id = q.1 := by
  intro m w hm
  unfold wfStep1
  cases mapGet m w.id with
  | none => exact vals_mapSet hm rfl
  | some existing => exact vals_mapSet hm rfl

/-- C6: merging a configuration with itself yields exactly one workflow per
distinct workflow id of the input — the resulting id list has no duplicates
and the same members as the input's id list. -/
theorem merge_self_one_workflow_per_id (A : SDLCConfig) :
    ((merge A A).workflows.map (·.id)).Nodup ∧
    (∀ s, s ∈ (merge A A).workflows.map (·.id) ↔ s ∈ A.workflows.map (·.id)) := by
  have hw : (merge A A).workflows = mergeWorkflows A.workflows A.workflows := rfl
  rw [hw]
  unfold mergeWorkflows
  by_cases he : A.workflows.isEmpty = true
  · rw [if_pos he]
    have hnil : A.workflows = [] := by simpa using he
    rw [hnil]
    simp
  · rw [if_neg he]
    have hvals : ∀ q ∈ A.workflows.foldl wfStep1 (A.workflows.foldl wfStep0 []),
        q.2.id = q.1 :=
      foldl_vals SDLCWorkflow.id wfStep1 wfStep1_vals _ _
        (foldl_vals SDLCWorkflow.id wfStep0 wfStep0_vals _ [] (by simp))
    have hids : ((A.workflows.foldl wfStep1
        (A.workflows.foldl wfStep0 [])).map (·.2)).map (·.id)
        = (A.workflows.foldl wfStep1 (A.workflows.foldl wfStep0 [])).map (·.1) := by
      rw [List.map_map]
      exact List.map_congr_left (fun q hq => hvals q hq)
    constructor
    · rw [hids]
      exact foldl_keys_nodup wfStep1 wfStep1_nodup _ _
        (foldl_keys_nodup wfStep0 wfStep0_nodup _ [] (by simp))
    · intro s
      rw [hids]
      rw [foldl_keys_mem SDLCWorkflow.id wfStep1 wfStep1_keys]
      rw [foldl_keys_mem SDLCWorkflow.id wfStep0 wfStep0_keys]
      simp

end SDLC
